import Mathlib

/-!
Shallow embedding of the WebSocket frame parser/encoder of `src/lib/frame.ts`
(`WebsocketParser.createFrame`, `WebsocketParser.readFrame`,
`WebsocketParser.readFragmentedBuffer`, `unmask`, `generateFirstByte`,
`clearFrames`).

Node `Buffer`s are modelled as `List Nat` whose elements are bytes (< 256).
Machine reads/writes carry Node's range checks: `Buffer.readUInt8` and
friends throw `ERR_OUT_OF_RANGE` when the offset is out of bounds, and
`Buffer.writeUInt8` throws when the value or offset is out of range; those
throwing operations are modelled with `Except` / `Option`.  `Buffer.slice`
clamps and never throws, which `drop`/`take` reproduce.  JavaScript numbers
appearing here are always non-negative integers in the paths modelled, so
`Nat` with explicit bounds is the carrier.
-/

namespace Websockets

/-- Errors the parser can throw: `WebSocketError(ClosureStatus.PROTOCOL_ERROR)`
for nonzero RSV bits, the plain `Error('Payload with 8 byte length is not
supported')` for oversized extended lengths, and Node range errors from
out-of-bounds buffer reads. -/
inductive WSErr where
  | protocolError
  | unsupportedLength
  | rangeError
  deriving DecidableEq, Repr

/-- Decoded frame record, mirroring `IFrame` of `interfaces.ts` as used by
`frame.ts` (rsv bits are numbers there, `fin`/`mask` booleans). -/
structure Frame where
  fin : Bool
  rsv1 : Nat
  rsv2 : Nat
  rsv3 : Nat
  opcode : Nat
  mask : Bool
  payloadLen : Nat
  payload : List Nat
  frameLen : Nat
  deriving DecidableEq, Repr

/-- Pending partial frame, mirroring `IFragmentedFrame`: header fields parsed
so far plus the partially accumulated raw payload. -/
structure IFragmentedFrame where
  fin : Bool
  rsv1 : Nat
  rsv2 : Nat
  rsv3 : Nat
  mask : Bool
  opcode : Nat
  payloadLen : Nat
  rawPayload : List Nat
  maskingKey : List Nat
  byteOffset : Nat
  deriving DecidableEq, Repr

/-- Mutable state of a `WebsocketParser` instance: the `parsedFrames` queue
and the optional `fragmentedFrame` slot. -/
structure ParserState where
  parsedFrames : List Frame
  fragmentedFrame : Option IFragmentedFrame
  deriving DecidableEq, Repr

/-- State of a freshly constructed `WebsocketParser`. -/
def newParser : ParserState := ⟨[], none⟩

/-- Source: `clearFrames() { this.parsedFrames = []; }`. -/
def clearFrames (st : ParserState) : ParserState :=
  { st with parsedFrames := [] }

/-- Node `buf.readUInt8(i)`: the byte at `i`, or a range error when `i` is
out of bounds. -/
def bufReadUInt8 (b : List Nat) (i : Nat) : Except WSErr Nat :=
  if i < b.length then .ok (b.getD i 0) else .error .rangeError

/-- Node `buf.readUInt16BE(i)`: big-endian 16-bit read with range check. -/
def bufReadUInt16BE (b : List Nat) (i : Nat) : Except WSErr Nat :=
  if i + 1 < b.length then .ok (b.getD i 0 * 256 + b.getD (i + 1) 0)
  else .error .rangeError

/-- Node `buf.readUInt32BE(i)`: big-endian 32-bit read with range check. -/
def bufReadUInt32BE (b : List Nat) (i : Nat) : Except WSErr Nat :=
  if i + 3 < b.length then
    .ok (b.getD i 0 * 16777216 + b.getD (i + 1) 0 * 65536 +
      b.getD (i + 2) 0 * 256 + b.getD (i + 3) 0)
  else .error .rangeError

/-- Node `buf.slice(s, e)` for `0 ≤ s ≤ e` (the only shapes `frame.ts`
uses): the clamped sub-buffer. -/
def bufSlice (b : List Nat) (s e : Nat) : List Nat :=
  (b.drop s).take (e - s)

/-- Node `buf.slice(s)`: the tail of the buffer from `s`, clamped. -/
def bufSliceFrom (b : List Nat) (s : Nat) : List Nat :=
  b.drop s

/-- Source: `unmask(rawPayload, payloadLen, maskingKey)`.  Allocates
`payloadLen` output bytes; byte `i` is `rawPayload[i] ^ maskingKey[i % 4]`.
A JavaScript out-of-range buffer index reads as `undefined`, which `^`
coerces to `0`, hence `getD _ 0`; for byte-valued inputs the `writeUInt8`
in the loop body cannot go out of range. -/
def unmask (rawPayload : List Nat) (payloadLen : Nat) (maskingKey : List Nat) :
    List Nat :=
  (List.range payloadLen).map
    (fun i => rawPayload.getD i 0 ^^^ maskingKey.getD (i % 4) 0)

/-- Source: `generateFirstByte(options)`. -/
def generateFirstByte (opcode : Nat) (fin : Bool) : Nat :=
  if opcode == 1 && fin then 129
  else if opcode == 1 && !fin then 1
  else if opcode == 2 && fin then 130
  else 2

/-- Node `buf.writeUInt8(value, offset)`: throws unless `0 ≤ value ≤ 255`
and the offset is in bounds; otherwise sets the byte. -/
def bufWriteUInt8 (b : List Nat) (value offset : Nat) : Option (List Nat) :=
  if value ≤ 255 ∧ offset < b.length then some (b.set offset value) else none

/-- Node `buf.writeUInt16BE(value, offset)`: throws unless
`0 ≤ value ≤ 65535` and both bytes are in bounds; otherwise writes the two
big-endian bytes. -/
def bufWriteUInt16BE (b : List Nat) (value offset : Nat) : Option (List Nat) :=
  if value ≤ 65535 ∧ offset + 1 < b.length then
    some ((b.set offset (value / 256)).set (offset + 1) (value % 256))
  else none

/-- The payload-copy loop of `createFrame`:
`for (let i = 0; i < dataLen; i++) { rawFrame.writeUInt8(payload[i], byteOffset); byteOffset++; }`. -/
def writeBytes (b : List Nat) (p : List Nat) (offset : Nat) :
    Option (List Nat) :=
  match p with
  | [] => some b
  | v :: rest =>
    match bufWriteUInt8 b v offset with
    | none => none
    | some b' => writeBytes b' rest (offset + 1)

/-- Source: `WebsocketParser.createFrame(payload, options)`.  Note the
source advances `byteOffset` by only 1 (`byteOffset++`) after the 2-byte
`writeUInt16BE` in the `dataLen === 126` branch. -/
def createFrame (payload : List Nat) (opcode : Nat) (fin : Bool) :
    Option (List Nat) :=
  let dataLen := payload.length
  let firstByte := generateFirstByte opcode fin
  let payloadLen := if dataLen == 126 then 126 else dataLen
  let frameSize := 2 + (if dataLen == 126 then 2 else 0) + dataLen
  let rawFrame := List.replicate frameSize 0
  match bufWriteUInt8 rawFrame firstByte 0 with
  | none => none
  | some rawFrame =>
    match bufWriteUInt8 rawFrame payloadLen 1 with
    | none => none
    | some rawFrame =>
      let next :=
        if dataLen == 126 then
          match bufWriteUInt16BE rawFrame dataLen 2 with
          | none => none
          | some rawFrame => some (rawFrame, 3)
        else some (rawFrame, 2)
      match next with
      | none => none
      | some (rawFrame, byteOffset) => writeBytes rawFrame payload byteOffset

/-- Outcome of the header-parsing part of `readFrame` on a nonempty chunk:
either a pending partial frame is recorded, or a complete frame plus the
remaining buffer is produced. -/
inductive CoreOut where
  | pend (ff : IFragmentedFrame)
  | frame (f : Frame) (rem : List Nat)
  deriving DecidableEq, Repr

/-- The `payloadLen === 126` block of `readFrame`: starting from the
7-bit candidate `secondByte & 127` at byte offset 2, read the 16-bit
extended length when the candidate is 126.  Returns the pair
`(payloadLen, byteOffset)` as left by that block. -/
def readLen126 (chunk : List Nat) (secondByte : Nat) :
    Except WSErr (Nat × Nat) :=
  if secondByte &&& 127 == 126 then
    match bufReadUInt16BE chunk 2 with
    | .error e => .error e
    | .ok v => .ok (v, 4)
  else .ok (secondByte &&& 127, 2)

/-- The `payloadLen === 127` block of `readFrame`: when the current
`payloadLen` is 127 (note the source tests the value left by the 126
block, not the original 7-bit candidate), read the 8-byte extended length
as two 32-bit big-endian halves, rejecting a nonzero first half.  Returns
the updated `(payloadLen, byteOffset)`. -/
def readLen127 (chunk : List Nat) (payloadLen1 offset1 : Nat) :
    Except WSErr (Nat × Nat) :=
  if payloadLen1 == 127 then
    match bufReadUInt32BE chunk offset1 with
    | .error e => .error e
    | .ok first32 =>
      match bufReadUInt32BE chunk (offset1 + 4) with
      | .error e => .error e
      | .ok second32 =>
        if first32 != 0 then .error .unsupportedLength
        else .ok (second32, offset1 + 8)
  else .ok (payloadLen1, offset1)

/-- Body of `WebsocketParser.readFrame` after the `readFragmentedBuffer`
call and the emptiness early-return: parses one frame header and payload
from `chunk`.  This part of the source reads no parser state; its two
mutations (`this.fragmentedFrame = {...}` and `this.parsedFrames.push`)
are the two constructors of `CoreOut`, applied by `readFrame` below. -/
def readFrameCore (chunk : List Nat) : Except WSErr CoreOut :=
  match bufReadUInt8 chunk 0 with
  | .error e => .error e
  | .ok firstByte =>
    let fin : Bool := (firstByte >>> 7) &&& 1 != 0
    let rsv1 := (firstByte >>> 6) &&& 1
    let rsv2 := (firstByte >>> 5) &&& 1
    let rsv3 := (firstByte >>> 4) &&& 1
    if rsv1 != 0 || rsv2 != 0 || rsv3 != 0 then .error .protocolError
    else
      let opcode := firstByte &&& 15
      match bufReadUInt8 chunk 1 with
      | .error e => .error e
      | .ok secondByte =>
        let mask : Bool := (secondByte >>> 7) &&& 1 != 0
        match readLen126 chunk secondByte with
        | .error e => .error e
        | .ok (payloadLen1, offset1) =>
          match readLen127 chunk payloadLen1 offset1 with
          | .error e => .error e
          | .ok (payloadLen, offset2) =>
            let maskingKey :=
              if mask then bufSlice chunk offset2 (offset2 + 4)
              else List.replicate 4 0
            let byteOffset := if mask then offset2 + 4 else offset2
            let rawPayload := bufSlice chunk byteOffset (byteOffset + payloadLen)
            let remainingBuff := bufSliceFrom chunk (byteOffset + payloadLen)
            if rawPayload.length < payloadLen then
              .ok (.pend ⟨fin, rsv1, rsv2, rsv3, mask, opcode, payloadLen,
                rawPayload, maskingKey, byteOffset⟩)
            else
              let payload :=
                if mask then unmask rawPayload payloadLen maskingKey
                else rawPayload
              .ok (.frame ⟨fin, rsv1, rsv2, rsv3, opcode, mask, payloadLen,
                payload, byteOffset + payload.length⟩ remainingBuff)

/-- Source: `WebsocketParser.readFragmentedBuffer(chunk)`.  Returns the
chunk handed on to header parsing together with the updated state.  The
`Buffer.concat` calls pass the exact total length, so they are plain
append. -/
def readFragmentedBuffer (chunk : List Nat) (st : ParserState) :
    List Nat × ParserState :=
  match st.fragmentedFrame with
  | none => (chunk, st)
  | some ff =>
    let remainingByteLen := ff.payloadLen - ff.rawPayload.length
    if remainingByteLen > chunk.length then
      let ff' := { ff with rawPayload := ff.rawPayload ++ chunk }
      ([], { st with fragmentedFrame := some ff' })
    else
      let remainingPart := chunk.take remainingByteLen
      let rawPayload := ff.rawPayload ++ remainingPart
      let payload :=
        if ff.mask then unmask rawPayload ff.payloadLen ff.maskingKey
        else rawPayload
      let frame : Frame := ⟨ff.fin, ff.rsv1, ff.rsv2, ff.rsv3, ff.opcode,
        ff.mask, ff.payloadLen, payload, ff.byteOffset + payload.length⟩
      (chunk.drop remainingByteLen,
        { parsedFrames := st.parsedFrames ++ [frame], fragmentedFrame := none })

/-- Source: `WebsocketParser.readFrame(chunk)`.  Returns the updated state
together with either the remaining buffer or the thrown error.  In the
source every `throw` happens before any mutation of the current call
(`readFragmentedBuffer`'s mutations are in `(readFragmentedBuffer ...).2`,
which is returned alongside the error), so pairing the state at throw time
with the error is an exact rendering. -/
def readFrame (chunk : List Nat) (st : ParserState) :
    ParserState × Except WSErr (List Nat) :=
  let r := readFragmentedBuffer chunk st
  if r.1.length = 0 then (r.2, .ok r.1)
  else
    match readFrameCore r.1 with
    | .error e => (r.2, .error e)
    | .ok (.pend ff) => ({ r.2 with fragmentedFrame := some ff }, .ok [])
    | .ok (.frame f rem) =>
      ({ r.2 with parsedFrames := r.2.parsedFrames ++ [f] }, .ok rem)

/-- States a `WebsocketParser` can actually be in: the fresh parser, and
anything reachable from it by `readFrame` and `clearFrames` calls. -/
inductive Reachable : ParserState → Prop where
  | init : Reachable newParser
  | step (chunk : List Nat) {st : ParserState} :
      Reachable st → Reachable (readFrame chunk st).1
  | clear {st : ParserState} : Reachable st → Reachable (clearFrames st)

end Websockets

namespace Websockets

theorem unmask_length (p : List Nat) (len : Nat) (key : List Nat) :
    (unmask p len key).length = len := by
  simp [unmask]

theorem unmask_getElem? (p : List Nat) (len : Nat) (key : List Nat)
    (i : Nat) (hi : i < len) :
    (unmask p len key)[i]? = some (p.getD i 0 ^^^ key.getD (i % 4) 0) := by
  simp [unmask, List.getElem?_map, List.getElem?_range hi]

/-- behavior C3 helper: unmasking twice with the same length and key gives
back the first `len` bytes of the input, provided the input supplies at
least `len` bytes. -/
theorem unmask_unmask (p : List Nat) (len : Nat) (key : List Nat)
    (hlen : len ≤ p.length) :
    unmask (unmask p len key) len key = p.take len := by
  apply List.ext_getElem
  · simp [unmask_length, hlen]
  · intro n h1 h2
    have hn : n < len := by simpa [unmask_length] using h1
    have e1 : (unmask p len key).getD n 0 = p.getD n 0 ^^^ key.getD (n % 4) 0 := by
      rw [List.getD_eq_getElem?_getD, unmask_getElem? p len key n hn]
      rfl
    have e2 : (unmask (unmask p len key) len key)[n]? =
        some ((p.getD n 0 ^^^ key.getD (n % 4) 0) ^^^ key.getD (n % 4) 0) := by
      rw [unmask_getElem? _ len key n hn, e1]
    have e3 : (unmask (unmask p len key) len key)[n]? = some (p.getD n 0) := by
      rw [e2, Nat.xor_cancel_right]
    have e4 : (p.take len)[n]? = p[n]? := by
      simp [List.getElem?_take, hn]
    have e5 : p[n]? = some (p.getD n 0) := by
      have hnp : n < p.length := lt_of_lt_of_le hn hlen
      rw [List.getD_eq_getElem?_getD, List.getElem?_eq_getElem hnp]
      simp
    have hL : (unmask (unmask p len key) len key)[n] = p.getD n 0 :=
      Option.some.inj ((List.getElem?_eq_getElem h1).symm.trans e3)
    have hR : (p.take len)[n] = p.getD n 0 :=
      Option.some.inj ((List.getElem?_eq_getElem h2).symm.trans (e4.trans e5))
    rw [hL, hR]

end Websockets

namespace Websockets

theorem take_set_of_le {α : Type} (l : List α) (i n : Nat) (a : α)
    (h : n ≤ i) : (l.set i a).take n = l.take n := by
  apply List.ext_getElem?
  intro m
  rw [List.getElem?_take, List.getElem?_take]
  by_cases hm : m < n
  · simp only [hm, if_true]
    exact List.getElem?_set_ne (by omega)
  · simp [hm]

theorem writeBytes_eq (p : List Nat) : ∀ (b : List Nat) (off : Nat),
    (∀ v ∈ p, v ≤ 255) → off + p.length ≤ b.length →
    writeBytes b p off = some (b.take off ++ p ++ b.drop (off + p.length)) := by
  induction p with
  | nil =>
    intro b off _ _
    simp [writeBytes, List.take_append_drop]
  | cons v rest ih =>
    intro b off hv hlen
    have hoff : off < b.length := by simp at hlen; omega
    have hv255 : v ≤ 255 := hv v (by simp)
    have hw : bufWriteUInt8 b v off = some (b.set off v) := by
      simp [bufWriteUInt8, hv255, hoff]
    have hrest : ∀ w ∈ rest, w ≤ 255 := fun w hw => hv w (by simp [hw])
    have hlen' : off + 1 + rest.length ≤ (b.set off v).length := by
      simp at hlen ⊢; omega
    have hih := ih (b.set off v) (off + 1) hrest hlen'
    have htake : (b.set off v).take (off + 1) = b.take off ++ [v] := by
      rw [List.take_succ, take_set_of_le b off off v le_rfl,
        List.getElem?_set_self hoff]
      rfl
    have hdrop : (b.set off v).drop (off + 1 + rest.length) =
        b.drop (off + (rest.length + 1)) := by
      rw [List.drop_set, if_pos (by omega)]
      congr 1
      omega
    rw [writeBytes, hw]
    show writeBytes (b.set off v) rest (off + 1) = _
    rw [hih, htake, hdrop]
    simp

theorem generateFirstByte_le (opcode : Nat) (fin : Bool) :
    generateFirstByte opcode fin ≤ 255 := by
  unfold generateFirstByte
  split
  · omega
  · split
    · omega
    · split <;> omega

theorem createFrame_of_ne126 (p : List Nat) (opcode : Nat) (fin : Bool)
    (hne : p.length ≠ 126) (hle : p.length ≤ 255) (hv : ∀ v ∈ p, v ≤ 255) :
    createFrame p opcode fin =
      some (generateFirstByte opcode fin :: p.length :: p) := by
  have hif : (p.length == 126) = false := by simp [hne]
  have hrep : List.replicate (2 + 0 + p.length) (0 : Nat) =
      0 :: 0 :: List.replicate p.length 0 := by
    simp [List.replicate_add, List.replicate_succ]
  have h0 : bufWriteUInt8 (0 :: 0 :: List.replicate p.length 0)
      (generateFirstByte opcode fin) 0 =
      some (generateFirstByte opcode fin :: 0 :: List.replicate p.length 0) := by
    rw [bufWriteUInt8, if_pos]
    · rfl
    · exact ⟨generateFirstByte_le opcode fin, by simp⟩
  have h1 : bufWriteUInt8
      (generateFirstByte opcode fin :: 0 :: List.replicate p.length 0)
      p.length 1 =
      some (generateFirstByte opcode fin :: p.length ::
        List.replicate p.length 0) := by
    rw [bufWriteUInt8, if_pos]
    · rfl
    · exact ⟨hle, by simp⟩
  have hwb := writeBytes_eq p
    (generateFirstByte opcode fin :: p.length :: List.replicate p.length 0)
    2 hv (by simp only [List.length_cons, List.length_replicate]; omega)
  have htk : (generateFirstByte opcode fin :: p.length ::
      List.replicate p.length 0).take 2 =
      [generateFirstByte opcode fin, p.length] := rfl
  have hdr : (generateFirstByte opcode fin :: p.length ::
      List.replicate p.length 0).drop (2 + p.length) = [] := by
    rw [Nat.add_comm]
    simp [List.drop_replicate]
  rw [createFrame]
  simp only [hif, Bool.false_eq_true, if_false, hrep, h0, h1, hwb, htk, hdr]
  simp

theorem createFrame_of_126 (p : List Nat) (opcode : Nat) (fin : Bool)
    (hlen : p.length = 126) (hv : ∀ v ∈ p, v ≤ 255) :
    createFrame p opcode fin =
      some ([generateFirstByte opcode fin, 126, 0] ++ p ++ [0]) := by
  have hif : (p.length == 126) = true := by simp [hlen]
  have hrep : List.replicate (2 + 2 + p.length) (0 : Nat) =
      0 :: 0 :: 0 :: 0 :: List.replicate 126 0 := by
    rw [hlen]
    simp [List.replicate_add, List.replicate_succ]
  have h0 : bufWriteUInt8 (0 :: 0 :: 0 :: 0 :: List.replicate 126 0)
      (generateFirstByte opcode fin) 0 =
      some (generateFirstByte opcode fin :: 0 :: 0 :: 0 ::
        List.replicate 126 0) := by
    rw [bufWriteUInt8, if_pos]
    · rfl
    · exact ⟨generateFirstByte_le opcode fin, by simp⟩
  have h1 : bufWriteUInt8 (generateFirstByte opcode fin :: 0 :: 0 :: 0 ::
      List.replicate 126 0) 126 1 =
      some (generateFirstByte opcode fin :: 126 :: 0 :: 0 ::
        List.replicate 126 0) := by
    rw [bufWriteUInt8, if_pos]
    · rfl
    · exact ⟨by omega, by simp⟩
  have h2 : bufWriteUInt16BE (generateFirstByte opcode fin :: 126 :: 0 :: 0 ::
      List.replicate 126 0) p.length 2 =
      some (generateFirstByte opcode fin :: 126 :: 0 :: 126 ::
        List.replicate 126 0) := by
    rw [hlen, bufWriteUInt16BE, if_pos]
    · rfl
    · exact ⟨by omega, by simp only [List.length_cons, List.length_replicate]; omega⟩
  have hwb := writeBytes_eq p (generateFirstByte opcode fin :: 126 :: 0 ::
      126 :: List.replicate 126 0) 3 hv
    (by simp only [List.length_cons, List.length_replicate]; omega)
  have htk : (generateFirstByte opcode fin :: 126 :: 0 :: 126 ::
      List.replicate 126 0).take 3 =
      [generateFirstByte opcode fin, 126, 0] := rfl
  have hdr : (generateFirstByte opcode fin :: 126 :: 0 :: 126 ::
      List.replicate 126 0).drop (3 + p.length) = [0] := by
    rw [hlen]
    rfl
  rw [createFrame]
  simp only [hif, if_true, hrep, h0, h1, h2, hwb, htk, hdr]

end Websockets

namespace Websockets

/-- claim C3 counterexample: the involution equation fails as universally
stated when `payloadLen` exceeds the input length.  With `rawPayload = []`,
`payloadLen = 1` and the zero key, double unmasking returns `[0]`, not the
input restricted to its first byte (which is `[]`). -/
theorem claim_C3_counterexample :
    unmask (unmask [] 1 [0, 0, 0, 0]) 1 [0, 0, 0, 0] ≠
      List.take 1 ([] : List Nat) := by
  decide

/-- claim C3 (amended): for every payload, every 4-byte key and every
`payloadLen` not exceeding the payload length, unmasking twice returns the
payload restricted to its first `payloadLen` bytes, and the output of
`unmask` always has length exactly `payloadLen`. -/
theorem claim_C3_masking_involution (rawPayload maskingKey : List Nat)
    (payloadLen : Nat) (hlen : payloadLen ≤ rawPayload.length)
    (hkey : maskingKey.length = 4) :
    unmask (unmask rawPayload payloadLen maskingKey) payloadLen maskingKey =
      rawPayload.take payloadLen ∧
    (unmask rawPayload payloadLen maskingKey).length = payloadLen :=
  ⟨unmask_unmask rawPayload payloadLen maskingKey hlen,
    unmask_length rawPayload payloadLen maskingKey⟩

/-- Witness for claim C3 at a concrete payload and key. -/
theorem claim_C3_masking_involution_witness :
    unmask (unmask [10, 20, 30, 40, 50] 5 [1, 2, 3, 4]) 5 [1, 2, 3, 4] =
      List.take 5 [10, 20, 30, 40, 50] ∧
    (unmask [10, 20, 30, 40, 50] 5 [1, 2, 3, 4]).length = 5 :=
  claim_C3_masking_involution [10, 20, 30, 40, 50] [1, 2, 3, 4] 5
    (by decide) (by decide)

set_option maxRecDepth 4000 in
/-- claim C6 counterexample: a 128-byte payload makes `createFrame` write
128 into the second byte, whose bit 7 is the mask bit, so the produced
frame has the mask bit set to 1, not 0. -/
theorem claim_C6_counterexample :
    (createFrame (List.replicate 128 0) 1 true).map
      (fun buf => (buf.getD 1 0 >>> 7) &&& 1) = some 1 := by
  rw [createFrame_of_ne126 (List.replicate 128 0) 1 true (by decide)
    (by decide) (by simp)]
  rfl

/-- claim C6 (amended): for every payload of length at most 127 (so that
the length byte cannot spill into bit 7) and every options value, the byte
sequence returned by `createFrame` has the mask bit of its second byte
equal to 0. -/
theorem claim_C6_mask_bit_clear (payload : List Nat) (opcode : Nat)
    (fin : Bool) (hlen : payload.length ≤ 127)
    (hv : ∀ v ∈ payload, v ≤ 255) :
    ∃ buf, createFrame payload opcode fin = some buf ∧
      (buf.getD 1 0 >>> 7) &&& 1 = 0 := by
  by_cases h126 : payload.length = 126
  · refine ⟨_, createFrame_of_126 payload opcode fin h126 hv, ?_⟩
    show ((126 : Nat) >>> 7) &&& 1 = 0
    rfl
  · refine ⟨_, createFrame_of_ne126 payload opcode fin h126 (by omega) hv, ?_⟩
    show (payload.length >>> 7) &&& 1 = 0
    rw [Nat.shiftRight_eq_div_pow, Nat.div_eq_of_lt (by omega)]
    rfl

/-- Witness for claim C6 at a concrete payload. -/
theorem claim_C6_mask_bit_clear_witness :
    ∃ buf, createFrame [5] 2 false = some buf ∧
      (buf.getD 1 0 >>> 7) &&& 1 = 0 :=
  claim_C6_mask_bit_clear [5] 2 false (by decide) (by decide)

set_option maxRecDepth 4000 in
/-- claim C7, bug demonstration: for a 126-byte payload the output length
matches the stated formula `2 + 2 + 126 = 130`, but the payload bytes are
NOT copied verbatim after the 4-byte header: the source advances the write
offset by one instead of two after the 16-bit extended-length write, so the
payload starts at offset 3, overwrites the low length byte, and the final
allocated byte stays 0. -/
theorem claim_C7_length126_overlap :
    createFrame (List.replicate 126 7) 1 true =
      some ([129, 126, 0] ++ List.replicate 126 7 ++ [0]) ∧
    ([129, 126, 0] ++ List.replicate 126 7 ++ [0]).length =
      2 + 2 + (List.replicate 126 7).length ∧
    ([129, 126, 0] ++ List.replicate 126 7 ++ [0]).drop 4 ≠
      List.replicate (126 : Nat) 7 := by
  refine ⟨?_, by decide, by decide⟩
  rw [createFrame_of_126 (List.replicate 126 7) 1 true (by decide) (by simp)]
  rfl

set_option maxRecDepth 8000 in
/-- claim C1, bug demonstration: encoding a 126-byte payload of 9s and
decoding the result on a fresh parser yields one frame whose payload is 9
bytes, not the original 126 bytes: the corrupted extended-length field is
read back as 9. -/
theorem claim_C1_roundtrip_decode_bug :
    ∃ buf, createFrame (List.replicate 126 9) 1 true = some buf ∧
      (readFrame buf newParser).1.parsedFrames.map
        (fun f => (f.payloadLen, f.payload)) = [(9, List.replicate 9 9)] := by
  refine ⟨_, createFrame_of_126 (List.replicate 126 9) 1 true (by decide)
    (by simp), ?_⟩
  decide

end Websockets

namespace Websockets

theorem bufReadUInt8_ok (b : List Nat) (i : Nat) (h : i < b.length) :
    bufReadUInt8 b i = .ok (b.getD i 0) := by
  simp [bufReadUInt8, h]

theorem bufReadUInt16BE_ok (b : List Nat) (i : Nat) (h : i + 1 < b.length) :
    bufReadUInt16BE b i = .ok (b.getD i 0 * 256 + b.getD (i + 1) 0) := by
  simp [bufReadUInt16BE, h]

theorem bufReadUInt32BE_ok (b : List Nat) (i : Nat) (h : i + 3 < b.length) :
    bufReadUInt32BE b i = .ok (b.getD i 0 * 16777216 + b.getD (i + 1) 0 * 65536 +
      b.getD (i + 2) 0 * 256 + b.getD (i + 3) 0) := by
  simp [bufReadUInt32BE, h]

theorem readFragmentedBuffer_none (chunk : List Nat) (st : ParserState)
    (h : st.fragmentedFrame = none) :
    readFragmentedBuffer chunk st = (chunk, st) := by
  rw [readFragmentedBuffer, h]

theorem readFrameCore_rsv (chunk : List Nat) (hlen : 0 < chunk.length)
    (hrsv : (chunk.getD 0 0 >>> 6) &&& 1 ≠ 0 ∨ (chunk.getD 0 0 >>> 5) &&& 1 ≠ 0 ∨
      (chunk.getD 0 0 >>> 4) &&& 1 ≠ 0) :
    readFrameCore chunk = .error .protocolError := by
  have hcond : ((chunk.getD 0 0 >>> 6) &&& 1 != 0 ||
      ((chunk.getD 0 0 >>> 5) &&& 1 != 0) ||
      ((chunk.getD 0 0 >>> 4) &&& 1 != 0)) = true := by
    simp only [Bool.or_eq_true, bne_iff_ne, ne_eq]
    tauto
  rw [readFrameCore, bufReadUInt8_ok chunk 0 hlen]
  simp only [hcond, if_true]

/-- claim C4: on a parser with no pending partial frame, a chunk whose
first byte has a nonzero RSV1, RSV2 or RSV3 bit makes `readFrame` throw
`WebSocketError(PROTOCOL_ERROR)` and return the state unchanged: the
decoded-frame queue is exactly as before and no pending frame is
created. -/
theorem claim_C4_rsv_rejection (chunk : List Nat) (st : ParserState)
    (hpend : st.fragmentedFrame = none) (hne : chunk ≠ [])
    (hrsv : (chunk.getD 0 0 >>> 6) &&& 1 ≠ 0 ∨ (chunk.getD 0 0 >>> 5) &&& 1 ≠ 0 ∨
      (chunk.getD 0 0 >>> 4) &&& 1 ≠ 0) :
    readFrame chunk st = (st, .error .protocolError) := by
  have hlen : 0 < chunk.length := List.length_pos.mpr hne
  rw [readFrame, readFragmentedBuffer_none chunk st hpend]
  simp only [readFrameCore_rsv chunk hlen hrsv]
  simp [Nat.pos_iff_ne_zero.mp hlen]

/-- Witness for claim C4: first byte `64 = 0b01000000` has RSV1 set. -/
theorem claim_C4_rsv_rejection_witness :
    readFrame [64, 0] newParser = (newParser, .error .protocolError) :=
  claim_C4_rsv_rejection [64, 0] newParser rfl (by decide)
    (Or.inl (by decide))

end Websockets

namespace Websockets

/-- claim C8: with a pending partial frame whose remaining byte count is
`remainingByteLen = payloadLen - rawPayload.length` (the reachable states
satisfy `rawPayload.length ≤ payloadLen`, matching the claim's reading of
the subtraction), a chunk shorter than `remainingByteLen` is buffered
whole, the pending state stays, no frame is emitted and the returned
remainder is empty; otherwise exactly `remainingByteLen` bytes are
consumed, the payload is unmasked when the mask flag was set, the
completed frame is appended to the queue, the pending state is cleared,
and the unconsumed tail of the chunk is returned. -/
theorem claim_C8_pending_reassembly (chunk : List Nat) (st : ParserState)
    (ff : IFragmentedFrame) (hpend : st.fragmentedFrame = some ff)
    (hwf : ff.rawPayload.length ≤ ff.payloadLen) :
    (chunk.length < ff.payloadLen - ff.rawPayload.length →
      readFragmentedBuffer chunk st =
        ([], ⟨st.parsedFrames,
          some { ff with rawPayload := ff.rawPayload ++ chunk }⟩)) ∧
    (ff.payloadLen - ff.rawPayload.length ≤ chunk.length →
      readFragmentedBuffer chunk st =
        (chunk.drop (ff.payloadLen - ff.rawPayload.length),
          { parsedFrames := st.parsedFrames ++
            [⟨ff.fin, ff.rsv1, ff.rsv2, ff.rsv3, ff.opcode, ff.mask,
              ff.payloadLen,
              if ff.mask then
                unmask (ff.rawPayload ++
                  chunk.take (ff.payloadLen - ff.rawPayload.length))
                  ff.payloadLen ff.maskingKey
              else ff.rawPayload ++
                chunk.take (ff.payloadLen - ff.rawPayload.length),
              ff.byteOffset +
                (if ff.mask then
                  unmask (ff.rawPayload ++
                    chunk.take (ff.payloadLen - ff.rawPayload.length))
                    ff.payloadLen ff.maskingKey
                else ff.rawPayload ++
                  chunk.take (ff.payloadLen - ff.rawPayload.length)).length⟩],
            fragmentedFrame := none })) := by
  constructor
  · intro hlt
    rw [readFragmentedBuffer, hpend]
    simp only [if_pos hlt]
  · intro hge
    rw [readFragmentedBuffer, hpend]
    have : ¬ (ff.payloadLen - ff.rawPayload.length > chunk.length) := by omega
    simp only [gt_iff_lt, this, if_false]

/-- Witness for claim C8: a pending 3-byte frame with 2 bytes buffered is
completed by a 2-byte chunk, consuming 1 byte and returning the tail. -/
theorem claim_C8_pending_reassembly_witness :
    2 < 3 - 2 ∨
    readFragmentedBuffer [3, 9]
        ⟨[], some ⟨true, 0, 0, 0, false, 1, 3, [1, 2], [0, 0, 0, 0], 2⟩⟩ =
      ([9], ⟨[⟨true, 0, 0, 0, 1, false, 3, [1, 2, 3], 5⟩], none⟩) :=
  Or.inr ((claim_C8_pending_reassembly [3, 9]
      ⟨[], some ⟨true, 0, 0, 0, false, 1, 3, [1, 2], [0, 0, 0, 0], 2⟩⟩
      ⟨true, 0, 0, 0, false, 1, 3, [1, 2], [0, 0, 0, 0], 2⟩ rfl
      (by decide)).2 (by decide))

end Websockets

namespace Websockets

theorem readFragmentedBuffer_queue (chunk : List Nat) (q : List Frame)
    (frag : Option IFragmentedFrame) :
    readFragmentedBuffer chunk ⟨q, frag⟩ =
      ((readFragmentedBuffer chunk ⟨[], frag⟩).1,
        ⟨q ++ (readFragmentedBuffer chunk ⟨[], frag⟩).2.parsedFrames,
          (readFragmentedBuffer chunk ⟨[], frag⟩).2.fragmentedFrame⟩) := by
  cases frag with
  | none => simp [readFragmentedBuffer]
  | some ff =>
    rw [readFragmentedBuffer, readFragmentedBuffer]
    by_cases hc : ff.payloadLen - ff.rawPayload.length > chunk.length
    · simp [hc]
    · simp [hc]

theorem readFrame_queue (chunk : List Nat) (q : List Frame)
    (frag : Option IFragmentedFrame) :
    readFrame chunk ⟨q, frag⟩ =
      (⟨q ++ (readFrame chunk ⟨[], frag⟩).1.parsedFrames,
        (readFrame chunk ⟨[], frag⟩).1.fragmentedFrame⟩,
        (readFrame chunk ⟨[], frag⟩).2) := by
  rw [readFrame, readFrame, readFragmentedBuffer_queue chunk q frag]
  rcases hr : readFragmentedBuffer chunk ⟨[], frag⟩ with ⟨c, st0⟩
  by_cases hc : c.length = 0
  · simp [hc]
  · simp only [hc, if_false]
    cases hcore : readFrameCore c with
    | error e => simp
    | ok out =>
      cases out with
      | pend ff => simp
      | frame f rem => simp [List.append_assoc]

/-- claim C10: `clearFrames` empties the decoded-frame queue and leaves the
pending-partial-frame slot untouched, and a subsequent `readFrame` call
behaves exactly as it would have without the clear: it produces the same
newly decoded frames (the old queue prefix removed), the same pending
state, and the same remainder or error — so a partially buffered frame is
still completed and emitted once its remaining bytes arrive. -/
theorem claim_C10_clear_keeps_pending (st : ParserState) (chunk : List Nat) :
    (clearFrames st).parsedFrames = [] ∧
    (clearFrames st).fragmentedFrame = st.fragmentedFrame ∧
    (readFrame chunk (clearFrames st)).1.parsedFrames =
      (readFrame chunk st).1.parsedFrames.drop st.parsedFrames.length ∧
    (readFrame chunk (clearFrames st)).1.fragmentedFrame =
      (readFrame chunk st).1.fragmentedFrame ∧
    (readFrame chunk (clearFrames st)).2 = (readFrame chunk st).2 := by
  obtain ⟨q, frag⟩ := st
  have hclear : clearFrames ⟨q, frag⟩ = ⟨[], frag⟩ := rfl
  refine ⟨rfl, rfl, ?_, ?_, ?_⟩ <;>
    rw [hclear, readFrame_queue chunk q frag] <;>
    simp [List.drop_left]

end Websockets

namespace Websockets

theorem bufSlice_length_le (b : List Nat) (s n : Nat) :
    (bufSlice b s (s + n)).length ≤ n := by
  simp [bufSlice]

theorem readLen126_ok (chunk : List Nat) (sb pl1 off1 : Nat)
    (h : readLen126 chunk sb = .ok (pl1, off1)) :
    off1 = 2 ∨ off1 = 4 := by
  rw [readLen126] at h
  split at h
  · rcases h16 : bufReadUInt16BE chunk 2 with e | v <;> rw [h16] at h
    · exact Except.noConfusion h
    · simp only [Except.ok.injEq, Prod.mk.injEq] at h
      right
      omega
  · simp only [Except.ok.injEq, Prod.mk.injEq] at h
    left
    omega

theorem readLen127_ok (chunk : List Nat) (pl1 off1 pl off2 : Nat)
    (h : readLen127 chunk pl1 off1 = .ok (pl, off2)) :
    off2 = off1 ∨ off2 = off1 + 8 := by
  rw [readLen127] at h
  split at h
  · rcases h32 : bufReadUInt32BE chunk off1 with e | f32 <;> rw [h32] at h
    · exact Except.noConfusion h
    · simp only [] at h
      rcases h32b : bufReadUInt32BE chunk (off1 + 4) with e | s32 <;>
        rw [h32b] at h
      · exact Except.noConfusion h
      · simp only [] at h
        split at h
        · exact Except.noConfusion h
        · simp only [Except.ok.injEq, Prod.mk.injEq] at h
          right
          omega
  · simp only [Except.ok.injEq, Prod.mk.injEq] at h
    left
    omega

theorem readFrameCore_ok_wf (chunk : List Nat) (out : CoreOut)
    (h : readFrameCore chunk = .ok out) :
    (∀ ff, out = .pend ff →
      ff.rawPayload.length ≤ ff.payloadLen ∧ 2 ≤ ff.byteOffset) ∧
    (∀ f rem, out = .frame f rem →
      f.payload.length = f.payloadLen ∧ f.payloadLen + 2 ≤ f.frameLen) := by
  unfold readFrameCore at h
  rcases e0 : bufReadUInt8 chunk 0 with e | b0 <;> rw [e0] at h <;>
    simp only [] at h
  · exact Except.noConfusion h
  split at h
  · exact Except.noConfusion h
  rcases e1 : bufReadUInt8 chunk 1 with e | b1 <;> rw [e1] at h <;>
    simp only [] at h
  · exact Except.noConfusion h
  rcases e2 : readLen126 chunk b1 with e | p1 <;> rw [e2] at h <;>
    simp only [] at h
  · exact Except.noConfusion h
  obtain ⟨pl1, off1⟩ := p1
  rcases e3 : readLen127 chunk pl1 off1 with e | p2 <;> rw [e3] at h <;>
    simp only [] at h
  · exact Except.noConfusion h
  obtain ⟨pl, off2⟩ := p2
  have hoff1 : off1 = 2 ∨ off1 = 4 := readLen126_ok chunk b1 pl1 off1 e2
  have hoff2 : off2 = off1 ∨ off2 = off1 + 8 :=
    readLen127_ok chunk pl1 off1 pl off2 e3
  cases hm : ((b1 >>> 7) &&& 1 != 0) <;> simp only [hm] at h <;>
    simp only [Bool.false_eq_true, if_false, if_true] at h <;>
    split at h <;>
    simp only [Except.ok.injEq] at h <;>
    subst h <;>
    refine ⟨fun ff hff => ?_, fun f rem hfr => ?_⟩ <;>
    first
      | exact CoreOut.noConfusion hff
      | exact CoreOut.noConfusion hfr
      | (injection hff with hinj
         subst hinj
         refine ⟨bufSlice_length_le chunk _ _, ?_⟩
         try simp only []
         omega)
      | (injection hfr with hinj1 hinj2
         subst hinj1
         subst hinj2
         constructor
         · try simp only []
           first
             | exact unmask_length _ _ _
             | (simp only [bufSlice, List.length_take, List.length_drop] at *
                omega)
         · try simp only []
           try rw [unmask_length]
           try simp only [bufSlice, List.length_take, List.length_drop] at *
           omega)

end Websockets

namespace Websockets

theorem readFragmentedBuffer_preserves (chunk : List Nat) (st : ParserState)
    (hq : ∀ f ∈ st.parsedFrames, f.payload.length = f.payloadLen ∧
      f.payloadLen + 2 ≤ f.frameLen)
    (hp : ∀ ff, st.fragmentedFrame = some ff →
      ff.rawPayload.length ≤ ff.payloadLen ∧ 2 ≤ ff.byteOffset) :
    (∀ f ∈ (readFragmentedBuffer chunk st).2.parsedFrames,
      f.payload.length = f.payloadLen ∧ f.payloadLen + 2 ≤ f.frameLen) ∧
    (∀ ff, (readFragmentedBuffer chunk st).2.fragmentedFrame = some ff →
      ff.rawPayload.length ≤ ff.payloadLen ∧ 2 ≤ ff.byteOffset) := by
  rcases hf : st.fragmentedFrame with _ | ff
  · rw [readFragmentedBuffer_none chunk st hf]
    exact ⟨hq, hp⟩
  · obtain ⟨hr1, hr2⟩ := hp ff hf
    rw [readFragmentedBuffer, hf]
    simp only []
    split
    · refine ⟨hq, fun ff' hff' => ?_⟩
      simp only [Option.some.injEq] at hff'
      subst hff'
      simp only [List.length_append]
      constructor
      · omega
      · exact hr2
    · rename_i hle
      refine ⟨?_, by simp⟩
      intro f hfmem
      simp only [List.mem_append, List.mem_singleton] at hfmem
      rcases hfmem with hold | hnew
      · exact hq f hold
      · subst hnew
        simp only []
        have hplen : (if ff.mask then
            unmask (ff.rawPayload ++
              chunk.take (ff.payloadLen - ff.rawPayload.length))
              ff.payloadLen ff.maskingKey
          else ff.rawPayload ++
            chunk.take (ff.payloadLen - ff.rawPayload.length)).length =
            ff.payloadLen := by
          split
          · exact unmask_length _ _ _
          · simp only [List.length_append, List.length_take]
            omega
        rw [hplen]
        exact ⟨rfl, by omega⟩

theorem readFrame_preserves (chunk : List Nat) (st : ParserState)
    (hq : ∀ f ∈ st.parsedFrames, f.payload.length = f.payloadLen ∧
      f.payloadLen + 2 ≤ f.frameLen)
    (hp : ∀ ff, st.fragmentedFrame = some ff →
      ff.rawPayload.length ≤ ff.payloadLen ∧ 2 ≤ ff.byteOffset) :
    (∀ f ∈ (readFrame chunk st).1.parsedFrames,
      f.payload.length = f.payloadLen ∧ f.payloadLen + 2 ≤ f.frameLen) ∧
    (∀ ff, (readFrame chunk st).1.fragmentedFrame = some ff →
      ff.rawPayload.length ≤ ff.payloadLen ∧ 2 ≤ ff.byteOffset) := by
  have h0 := readFragmentedBuffer_preserves chunk st hq hp
  rw [readFrame]
  rcases hr : readFragmentedBuffer chunk st with ⟨c, st0⟩
  rw [hr] at h0
  by_cases hc : c.length = 0
  · simp only [hc, if_true]
    exact h0
  · simp only [hc, if_false]
    rcases hcore : readFrameCore c with e | out
    · exact h0
    · have hwf := readFrameCore_ok_wf c out hcore
      cases out with
      | pend ff =>
        refine ⟨h0.1, fun ff' hff' => ?_⟩
        simp only [Option.some.injEq] at hff'
        subst hff'
        exact hwf.1 _ rfl
      | frame f rem =>
        refine ⟨?_, h0.2⟩
        intro f' hf'
        simp only [List.mem_append, List.mem_singleton] at hf'
        rcases hf' with hold | hnew
        · exact h0.1 f' hold
        · subst hnew
          exact hwf.2 _ rem rfl

theorem parser_state_wf (st : ParserState) (h : Reachable st) :
    (∀ f ∈ st.parsedFrames, f.payload.length = f.payloadLen ∧
      f.payloadLen + 2 ≤ f.frameLen) ∧
    (∀ ff, st.fragmentedFrame = some ff →
      ff.rawPayload.length ≤ ff.payloadLen ∧ 2 ≤ ff.byteOffset) := by
  induction h with
  | init => exact ⟨by simp [newParser], by simp [newParser]⟩
  | step chunk hst ih => exact readFrame_preserves _ _ ih.1 ih.2
  | clear hst ih => exact ⟨by simp [clearFrames], fun ff hff => ih.2 ff hff⟩

/-- claim C9: every frame ever appended to the decoded-frame queue of a
reachable parser state satisfies `payload.length = payloadLen`, and its
`frameLen` is the header byte offset plus `payload.length` (the header
offset is not stored in the frame, so it is rendered as
`payload.length + 2 ≤ frameLen`, the offset being at least the 2 fixed
header bytes; the equation itself is definitional at both construction
sites). -/
theorem claim_C9_frame_invariant (st : ParserState) (h : Reachable st) :
    ∀ f ∈ st.parsedFrames, f.payload.length = f.payloadLen ∧
      f.payload.length + 2 ≤ f.frameLen := by
  intro f hf
  obtain ⟨h1, h2⟩ := (parser_state_wf st h).1 f hf
  exact ⟨h1, by omega⟩

/-- Witness for claim C9 on the state reached by decoding one frame. -/
theorem claim_C9_frame_invariant_witness :
    (⟨true, 0, 0, 0, 1, false, 1, [65], 3⟩ : Frame) ∈
      (readFrame [129, 1, 65] newParser).1.parsedFrames ∧
    (([65] : List Nat).length = 1 ∧ ([65] : List Nat).length + 2 ≤ 3) :=
  ⟨by decide,
    claim_C9_frame_invariant (readFrame [129, 1, 65] newParser).1
      (Reachable.step [129, 1, 65] Reachable.init)
      ⟨true, 0, 0, 0, 1, false, 1, [65], 3⟩ (by decide)⟩

end Websockets

namespace Websockets

/-- claim C5: on a parser with no pending frame, a chunk whose header has
clean RSV bits, 7-bit length candidate 127 and a full 8-byte extended
length field throws the unsupported-length error when the first 32-bit
half is nonzero; when it is zero, the payload length becomes the second
32-bit half and the header offset advances by 8 (from 2 to 10, plus 4 more
when masked), as witnessed by the resulting pending frame or decoded
frame. -/
theorem claim_C5_extended_length (chunk : List Nat) (st : ParserState)
    (hpend : st.fragmentedFrame = none) (hlen : 10 ≤ chunk.length)
    (hrsv1 : (chunk.getD 0 0 >>> 6) &&& 1 = 0)
    (hrsv2 : (chunk.getD 0 0 >>> 5) &&& 1 = 0)
    (hrsv3 : (chunk.getD 0 0 >>> 4) &&& 1 = 0)
    (hlen7 : chunk.getD 1 0 &&& 127 = 127) :
    let first32 := chunk.getD 2 0 * 16777216 + chunk.getD 3 0 * 65536 +
      chunk.getD 4 0 * 256 + chunk.getD 5 0
    let second32 := chunk.getD 6 0 * 16777216 + chunk.getD 7 0 * 65536 +
      chunk.getD 8 0 * 256 + chunk.getD 9 0
    let fin : Bool := (chunk.getD 0 0 >>> 7) &&& 1 != 0
    let maskB : Bool := (chunk.getD 1 0 >>> 7) &&& 1 != 0
    let opcode := chunk.getD 0 0 &&& 15
    let off := if maskB then 14 else 10
    let mkey := if maskB then bufSlice chunk 10 14 else List.replicate 4 0
    let raw := bufSlice chunk off (off + second32)
    let payload := if maskB then unmask raw second32 mkey else raw
    (first32 ≠ 0 → readFrame chunk st = (st, .error .unsupportedLength)) ∧
    (first32 = 0 →
      (raw.length < second32 →
        readFrame chunk st =
          (⟨st.parsedFrames, some ⟨fin, (chunk.getD 0 0 >>> 6) &&& 1,
            (chunk.getD 0 0 >>> 5) &&& 1, (chunk.getD 0 0 >>> 4) &&& 1,
            maskB, opcode, second32, raw, mkey, off⟩⟩, .ok [])) ∧
      (¬ raw.length < second32 →
        readFrame chunk st =
          (⟨st.parsedFrames ++ [⟨fin, (chunk.getD 0 0 >>> 6) &&& 1,
            (chunk.getD 0 0 >>> 5) &&& 1, (chunk.getD 0 0 >>> 4) &&& 1,
            opcode, maskB, second32, payload, off + payload.length⟩], none⟩,
            .ok (chunk.drop (off + second32))))) := by
  intro first32 second32 fin maskB opcode off mkey raw payload
  have hb0 := bufReadUInt8_ok chunk 0 (by omega)
  have hb1 := bufReadUInt8_ok chunk 1 (by omega)
  have h126 : readLen126 chunk (chunk.getD 1 0) = .ok (127, 2) := by
    rw [readLen126, hlen7]
    rfl
  have h32a : bufReadUInt32BE chunk 2 = .ok first32 :=
    bufReadUInt32BE_ok chunk 2 (by omega)
  have h32b : bufReadUInt32BE chunk 6 = .ok second32 :=
    bufReadUInt32BE_ok chunk 6 (by omega)
  have hrsvF : ((chunk.getD 0 0 >>> 6) &&& 1 != 0 ||
      (chunk.getD 0 0 >>> 5) &&& 1 != 0 ||
      (chunk.getD 0 0 >>> 4) &&& 1 != 0) = false := by
    rw [hrsv1, hrsv2, hrsv3]
    rfl
  have hch : ¬ (chunk.length = 0) := by omega
  constructor
  · intro hne
    have h127 : readLen127 chunk 127 2 = .error .unsupportedLength := by
      rw [readLen127,
        if_pos (show ((127 : Nat) == 127) = true from rfl), h32a]
      simp only []
      rw [h32b]
      simp only []
      rw [if_pos (by simpa [bne_iff_ne] using hne)]
    have hcore : readFrameCore chunk = .error .unsupportedLength := by
      unfold readFrameCore
      rw [hb0]
      simp only []
      rw [hrsvF]
      simp only [Bool.false_eq_true, if_false]
      rw [hb1]
      simp only []
      rw [h126]
      simp only []
      rw [h127]
    rw [readFrame, readFragmentedBuffer_none chunk st hpend]
    simp only [hch, if_false, hcore]
  · intro hz
    have h127 : readLen127 chunk 127 2 = .ok (second32, 10) := by
      rw [readLen127,
        if_pos (show ((127 : Nat) == 127) = true from rfl), h32a]
      simp only []
      rw [h32b]
      simp only []
      rw [if_neg (by simp [hz])]
    constructor
    · intro hshort
      have hcore : readFrameCore chunk = .ok (.pend ⟨fin,
          (chunk.getD 0 0 >>> 6) &&& 1, (chunk.getD 0 0 >>> 5) &&& 1,
          (chunk.getD 0 0 >>> 4) &&& 1, maskB, opcode, second32, raw,
          mkey, off⟩) := by
        unfold readFrameCore
        rw [hb0]
        simp only []
        rw [hrsvF]
        simp only [Bool.false_eq_true, if_false]
        rw [hb1]
        simp only []
        rw [h126]
        simp only []
        rw [h127]
        simp only []
        rw [if_pos]
        exact hshort
      rw [readFrame, readFragmentedBuffer_none chunk st hpend]
      simp only [hch, if_false, hcore]
    · intro hge
      have hcore : readFrameCore chunk = .ok (.frame ⟨fin,
          (chunk.getD 0 0 >>> 6) &&& 1, (chunk.getD 0 0 >>> 5) &&& 1,
          (chunk.getD 0 0 >>> 4) &&& 1, opcode, maskB, second32, payload,
          off + payload.length⟩ (chunk.drop (off + second32))) := by
        unfold readFrameCore
        rw [hb0]
        simp only []
        rw [hrsvF]
        simp only [Bool.false_eq_true, if_false]
        rw [hb1]
        simp only []
        rw [h126]
        simp only []
        rw [h127]
        simp only []
        rw [if_neg]
        · rfl
        · exact hge
      rw [readFrame, readFragmentedBuffer_none chunk st hpend]
      simp only [hch, if_false, hcore]
      rw [hpend]

/-- Witness for claim C5: a 10-byte unmasked header with extended length 5
leaves a pending frame with payloadLen 5 and byteOffset 10; a nonzero
first half throws. -/
theorem claim_C5_extended_length_witness :
    readFrame [129, 127, 0, 0, 0, 0, 0, 0, 0, 5] newParser =
      (⟨[], some ⟨true, 0, 0, 0, false, 1, 5, [], [0, 0, 0, 0], 10⟩⟩,
        .ok []) ∧
    readFrame [130, 127, 0, 0, 0, 1, 0, 0, 0, 0] newParser =
      (newParser, .error .unsupportedLength) :=
  ⟨((claim_C5_extended_length [129, 127, 0, 0, 0, 0, 0, 0, 0, 5] newParser
      rfl (by decide) (by decide) (by decide) (by decide) (by decide)).2
      (by decide)).1 (by decide),
    (claim_C5_extended_length [130, 127, 0, 0, 0, 1, 0, 0, 0, 0] newParser
      rfl (by decide) (by decide) (by decide) (by decide) (by decide)).1
      (by decide)⟩

theorem core_eval_of (chunk : List Nat) (b0 b1 pl1 off1 plen off2 : Nat)
    (key p' : List Nat)
    (hc0 : chunk.getD 0 0 = b0) (hc1 : chunk.getD 1 0 = b1)
    (hlen2 : 2 ≤ chunk.length)
    (hrsv1 : (b0 >>> 6) &&& 1 = 0) (hrsv2 : (b0 >>> 5) &&& 1 = 0)
    (hrsv3 : (b0 >>> 4) &&& 1 = 0)
    (h126 : readLen126 chunk b1 = .ok (pl1, off1))
    (h127 : readLen127 chunk pl1 off1 = .ok (plen, off2))
    (hkey : if (b1 >>> 7) &&& 1 != 0 then key.length = 4 else key = [])
    (hdrop : chunk.drop off2 = key ++ p') :
    (p'.length < plen →
      readFrameCore chunk = .ok (.pend ⟨(b0 >>> 7) &&& 1 != 0,
        (b0 >>> 6) &&& 1, (b0 >>> 5) &&& 1, (b0 >>> 4) &&& 1,
        (b1 >>> 7) &&& 1 != 0, b0 &&& 15, plen, p'.take plen,
        (if (b1 >>> 7) &&& 1 != 0 then key else List.replicate 4 0),
        (if (b1 >>> 7) &&& 1 != 0 then off2 + 4 else off2)⟩)) ∧
    (plen ≤ p'.length →
      readFrameCore chunk = .ok (.frame ⟨(b0 >>> 7) &&& 1 != 0,
        (b0 >>> 6) &&& 1, (b0 >>> 5) &&& 1, (b0 >>> 4) &&& 1, b0 &&& 15,
        (b1 >>> 7) &&& 1 != 0, plen,
        (if (b1 >>> 7) &&& 1 != 0 then
          unmask (p'.take plen) plen key else p'.take plen),
        (if (b1 >>> 7) &&& 1 != 0 then off2 + 4 else off2) +
          (if (b1 >>> 7) &&& 1 != 0 then
            unmask (p'.take plen) plen key else p'.take plen).length⟩
        (p'.drop plen))) := by
  have hb0 : bufReadUInt8 chunk 0 = .ok b0 := by
    rw [bufReadUInt8_ok chunk 0 (by omega), hc0]
  have hb1 : bufReadUInt8 chunk 1 = .ok b1 := by
    rw [bufReadUInt8_ok chunk 1 (by omega), hc1]
  have hrsvF : ((b0 >>> 6) &&& 1 != 0 || (b0 >>> 5) &&& 1 != 0 ||
      (b0 >>> 4) &&& 1 != 0) = false := by
    rw [hrsv1, hrsv2, hrsv3]
    rfl
  have hk4 : ((b1 >>> 7) &&& 1 != 0) = true → key.length = 4 := by
    intro hm
    have h := hkey
    rw [hm] at h
    simpa using h
  have hkNil : ((b1 >>> 7) &&& 1 != 0) = false → key = [] := by
    intro hm
    have h := hkey
    rw [hm] at h
    simpa using h
  have hdropM : ((b1 >>> 7) &&& 1 != 0) = true →
      chunk.drop (off2 + 4) = p' := by
    intro hm
    rw [← List.drop_drop, hdrop,
      show (4 : Nat) = key.length from (hk4 hm).symm, List.drop_left]
  have hkey2 : ((b1 >>> 7) &&& 1 != 0) = true →
      bufSlice chunk off2 (off2 + 4) = key := by
    intro hm
    rw [bufSlice, Nat.add_sub_cancel_left, hdrop,
      show (4 : Nat) = key.length from (hk4 hm).symm, List.take_left]
  have hrawM : ((b1 >>> 7) &&& 1 != 0) = true →
      bufSlice chunk (off2 + 4) (off2 + 4 + plen) = p'.take plen := by
    intro hm
    rw [bufSlice, Nat.add_sub_cancel_left, hdropM hm]
  have hrawU : ((b1 >>> 7) &&& 1 != 0) = false →
      bufSlice chunk off2 (off2 + plen) = p'.take plen := by
    intro hm
    rw [bufSlice, Nat.add_sub_cancel_left, hdrop, hkNil hm]
    simp
  have hremM : ((b1 >>> 7) &&& 1 != 0) = true →
      bufSliceFrom chunk (off2 + 4 + plen) = p'.drop plen := by
    intro hm
    rw [bufSliceFrom, ← List.drop_drop, hdropM hm]
  have hremU : ((b1 >>> 7) &&& 1 != 0) = false →
      bufSliceFrom chunk (off2 + plen) = p'.drop plen := by
    intro hm
    rw [bufSliceFrom, ← List.drop_drop, hdrop, hkNil hm]
    simp
  constructor
  · intro hlt
    unfold readFrameCore
    rw [hb0]
    simp only []
    rw [hrsvF]
    simp only [Bool.false_eq_true, if_false]
    rw [hb1]
    simp only []
    rw [h126]
    simp only []
    rw [h127]
    simp only []
    cases hm : ((b1 >>> 7) &&& 1 != 0) with
    | false =>
      simp only [Bool.false_eq_true, if_false]
      rw [hrawU hm]
      rw [if_pos (by simp only [List.length_take]; omega)]
    | true =>
      simp only [if_true]
      rw [hrawM hm, hkey2 hm]
      rw [if_pos (by simp only [List.length_take]; omega)]
  · intro hlt
    unfold readFrameCore
    rw [hb0]
    simp only []
    rw [hrsvF]
    simp only [Bool.false_eq_true, if_false]
    rw [hb1]
    simp only []
    rw [h126]
    simp only []
    rw [h127]
    simp only []
    cases hm : ((b1 >>> 7) &&& 1 != 0) with
    | false =>
      simp only [Bool.false_eq_true, if_false]
      rw [hrawU hm, hremU hm]
      rw [if_neg (by simp only [List.length_take]; omega)]
    | true =>
      simp only [if_true]
      rw [hrawM hm, hkey2 hm, hremM hm]
      rw [if_neg (by simp only [List.length_take]; omega)]

theorem getD_take (b : List Nat) (j n : Nat) (h : n < j) :
    (b.take j).getD n 0 = b.getD n 0 := by
  rw [List.getD_eq_getElem?_getD, List.getD_eq_getElem?_getD,
    List.getElem?_take, if_pos h]

theorem bufReadUInt8_take (b : List Nat) (i j : Nat) (h : i < j) :
    bufReadUInt8 (b.take j) i = bufReadUInt8 b i := by
  rw [bufReadUInt8, bufReadUInt8]
  by_cases hb : i < b.length
  · rw [if_pos (by simp [List.length_take]; omega), if_pos hb,
      getD_take b j i h]
  · rw [if_neg (by simp [List.length_take]; omega), if_neg hb]

theorem bufReadUInt16BE_take (b : List Nat) (i j : Nat) (h : i + 1 < j) :
    bufReadUInt16BE (b.take j) i = bufReadUInt16BE b i := by
  rw [bufReadUInt16BE, bufReadUInt16BE]
  by_cases hb : i + 1 < b.length
  · rw [if_pos (by simp [List.length_take]; omega), if_pos hb,
      getD_take b j i (by omega), getD_take b j (i + 1) (by omega)]
  · rw [if_neg (by simp [List.length_take]; omega), if_neg hb]

theorem bufReadUInt32BE_take (b : List Nat) (i j : Nat) (h : i + 3 < j) :
    bufReadUInt32BE (b.take j) i = bufReadUInt32BE b i := by
  rw [bufReadUInt32BE, bufReadUInt32BE]
  by_cases hb : i + 3 < b.length
  · rw [if_pos (by simp [List.length_take]; omega), if_pos hb,
      getD_take b j i (by omega), getD_take b j (i + 1) (by omega),
      getD_take b j (i + 2) (by omega), getD_take b j (i + 3) (by omega)]
  · rw [if_neg (by simp [List.length_take]; omega), if_neg hb]

theorem readLen126_take (b : List Nat) (sb j : Nat)
    (h : sb &&& 127 = 126 → 3 < j) :
    readLen126 (b.take j) sb = readLen126 b sb := by
  rw [readLen126, readLen126]
  by_cases hc : sb &&& 127 = 126
  · rw [if_pos (by simp [hc]), if_pos (by simp [hc]),
      bufReadUInt16BE_take b 2 j (by have := h hc; omega)]
  · rw [if_neg (by simp [hc]), if_neg (by simp [hc])]

theorem readLen127_take (b : List Nat) (pl1 off1 j : Nat)
    (h : pl1 = 127 → off1 + 7 < j) :
    readLen127 (b.take j) pl1 off1 = readLen127 b pl1 off1 := by
  rw [readLen127, readLen127]
  by_cases hc : pl1 = 127
  · rw [if_pos (by simp [hc]), if_pos (by simp [hc]),
      bufReadUInt32BE_take b off1 j (by have := h hc; omega),
      bufReadUInt32BE_take b (off1 + 4) j (by have := h hc; omega)]
  · rw [if_neg (by simp [hc]), if_neg (by simp [hc])]

theorem readLen126_off126 (chunk : List Nat) (sb pl1 off1 : Nat)
    (h : readLen126 chunk sb = .ok (pl1, off1)) (hc : sb &&& 127 = 126) :
    off1 = 4 := by
  rw [readLen126, if_pos (by simp [hc])] at h
  rcases h16 : bufReadUInt16BE chunk 2 with e | v <;> rw [h16] at h
  · exact Except.noConfusion h
  · simp only [Except.ok.injEq, Prod.mk.injEq] at h
    omega

theorem readLen127_off127 (chunk : List Nat) (pl1 off1 pl off2 : Nat)
    (h : readLen127 chunk pl1 off1 = .ok (pl, off2)) (hc : pl1 = 127) :
    off2 = off1 + 8 := by
  rw [readLen127, if_pos (by simp [hc])] at h
  rcases h32 : bufReadUInt32BE chunk off1 with e | f32 <;> rw [h32] at h
  · exact Except.noConfusion h
  · simp only [] at h
    rcases h32b : bufReadUInt32BE chunk (off1 + 4) with e | s32 <;>
      rw [h32b] at h
    · exact Except.noConfusion h
    · simp only [] at h
      split at h
      · exact Except.noConfusion h
      · simp only [Except.ok.injEq, Prod.mk.injEq] at h
        omega

theorem readLen127_plen (chunk : List Nat) (pl1 off1 pl off2 : Nat)
    (h : readLen127 chunk pl1 off1 = .ok (pl, off2)) (hc : pl1 ≠ 127) :
    pl = pl1 ∧ off2 = off1 := by
  rw [readLen127, if_neg (by simp [hc])] at h
  simp only [Except.ok.injEq, Prod.mk.injEq] at h
  omega

theorem readFrame_split_eq (chunk : List Nat) (b0 b1 pl1 off1 plen off2 i : Nat)
    (key payload : List Nat)
    (hc0 : chunk.getD 0 0 = b0) (hc1 : chunk.getD 1 0 = b1)
    (hrsv1 : (b0 >>> 6) &&& 1 = 0) (hrsv2 : (b0 >>> 5) &&& 1 = 0)
    (hrsv3 : (b0 >>> 4) &&& 1 = 0)
    (h126 : readLen126 chunk b1 = .ok (pl1, off1))
    (h127 : readLen127 chunk pl1 off1 = .ok (plen, off2))
    (hkey : if (b1 >>> 7) &&& 1 != 0 then key.length = 4 else key = [])
    (hdrop : chunk.drop off2 = key ++ payload)
    (hplen : payload.length = plen)
    (hchlen : chunk.length =
      (if (b1 >>> 7) &&& 1 != 0 then off2 + 4 else off2) + plen)
    (hi : i = 0 ∨ (if (b1 >>> 7) &&& 1 != 0 then off2 + 4 else off2) ≤ i)
    (hile : i ≤ chunk.length) :
    readFrame chunk newParser =
      (⟨[⟨(b0 >>> 7) &&& 1 != 0, (b0 >>> 6) &&& 1, (b0 >>> 5) &&& 1,
        (b0 >>> 4) &&& 1, b0 &&& 15, (b1 >>> 7) &&& 1 != 0, plen,
        (if (b1 >>> 7) &&& 1 != 0 then unmask payload plen key else payload),
        (if (b1 >>> 7) &&& 1 != 0 then off2 + 4 else off2) +
          (if (b1 >>> 7) &&& 1 != 0 then unmask payload plen key
           else payload).length⟩], none⟩, .ok []) ∧
    (readFrame (chunk.take i) newParser).2 = .ok [] ∧
    readFrame (chunk.drop i) (readFrame (chunk.take i) newParser).1 =
      (⟨[⟨(b0 >>> 7) &&& 1 != 0, (b0 >>> 6) &&& 1, (b0 >>> 5) &&& 1,
        (b0 >>> 4) &&& 1, b0 &&& 15, (b1 >>> 7) &&& 1 != 0, plen,
        (if (b1 >>> 7) &&& 1 != 0 then unmask payload plen key else payload),
        (if (b1 >>> 7) &&& 1 != 0 then off2 + 4 else off2) +
          (if (b1 >>> 7) &&& 1 != 0 then unmask payload plen key
           else payload).length⟩], none⟩, .ok []) := by
  have hoff1 := readLen126_ok chunk b1 pl1 off1 h126
  have hoff2 := readLen127_ok chunk pl1 off1 plen off2 h127
  have hbo_key : (if (b1 >>> 7) &&& 1 != 0 then off2 + 4 else off2) =
      off2 + key.length := by
    cases hB : ((b1 >>> 7) &&& 1 != 0)
    · have hnil : key = [] := by
        have h := hkey
        rw [hB] at h
        simpa using h
      simp [hnil]
    · have h4 : key.length = 4 := by
        have h := hkey
        rw [hB] at h
        simpa using h
      simp [h4]
  have hlen2 : 2 ≤ chunk.length := by
    rw [hchlen, hbo_key]
    omega
  have htp : payload.take plen = payload :=
    List.take_of_length_le (by omega)
  have hcoreW := (core_eval_of chunk b0 b1 pl1 off1 plen off2 key payload
    hc0 hc1 hlen2 hrsv1 hrsv2 hrsv3 h126 h127 hkey hdrop).2 (by omega)
  rw [htp] at hcoreW
  have hdrem : payload.drop plen = [] := List.drop_eq_nil_of_le (by omega)
  rw [hdrem] at hcoreW
  have hch0 : ¬ (chunk.length = 0) := by omega
  have hwhole : readFrame chunk newParser =
      (⟨[⟨(b0 >>> 7) &&& 1 != 0, (b0 >>> 6) &&& 1, (b0 >>> 5) &&& 1,
        (b0 >>> 4) &&& 1, b0 &&& 15, (b1 >>> 7) &&& 1 != 0, plen,
        (if (b1 >>> 7) &&& 1 != 0 then unmask payload plen key else payload),
        (if (b1 >>> 7) &&& 1 != 0 then off2 + 4 else off2) +
          (if (b1 >>> 7) &&& 1 != 0 then unmask payload plen key
           else payload).length⟩], none⟩, .ok []) := by
    rw [readFrame, readFragmentedBuffer_none chunk newParser rfl]
    simp only [hch0, if_false, hcoreW]
    rfl
  rcases hi with hi0 | hibo
  · subst hi0
    rw [List.take_zero, List.drop_zero]
    exact ⟨hwhole, rfl, hwhole⟩
  by_cases hieq : i = chunk.length
  · subst hieq
    rw [List.take_length, List.drop_length]
    refine ⟨hwhole, ?_, ?_⟩
    · rw [hwhole]
    · rw [hwhole]
      rfl
  have hilt : i < chunk.length := lt_of_le_of_ne hile hieq
  have hchlen2 : chunk.length = off2 + key.length + plen := by
    rw [hchlen, hbo_key]
  have hboi : off2 + key.length ≤ i := by
    rw [← hbo_key]
    exact hibo
  have hc0' : (chunk.take i).getD 0 0 = b0 := by
    rw [getD_take chunk i 0 (by omega), hc0]
  have hc1' : (chunk.take i).getD 1 0 = b1 := by
    rw [getD_take chunk i 1 (by omega), hc1]
  have hlen2' : 2 ≤ (chunk.take i).length := by
    simp only [List.length_take]
    omega
  have h126' : readLen126 (chunk.take i) b1 = .ok (pl1, off1) := by
    have hb : b1 &&& 127 = 126 → 3 < i := by
      intro hc
      have h4 := readLen126_off126 chunk b1 pl1 off1 h126 hc
      omega
    rw [readLen126_take chunk b1 i hb, h126]
  have h127' : readLen127 (chunk.take i) pl1 off1 = .ok (plen, off2) := by
    have hb : pl1 = 127 → off1 + 7 < i := by
      intro hc
      have h8 := readLen127_off127 chunk pl1 off1 plen off2 h127 hc
      omega
    rw [readLen127_take chunk pl1 off1 i hb, h127]
  have hdrop' : (chunk.take i).drop off2 =
      key ++ payload.take (i - (off2 + key.length)) := by
    rw [List.drop_take, hdrop, List.take_append_eq_append_take,
      List.take_of_length_le (by omega : key.length ≤ i - off2)]
    congr 2
    omega
  have hplen' : (payload.take (i - (off2 + key.length))).length =
      i - (off2 + key.length) := by
    simp only [List.length_take]
    omega
  have hcoreT := (core_eval_of (chunk.take i) b0 b1 pl1 off1 plen off2
    key (payload.take (i - (off2 + key.length))) hc0' hc1' hlen2'
    hrsv1 hrsv2 hrsv3 h126' h127' hkey hdrop').1
    (by rw [hplen']; omega)
  have htp2 : (payload.take (i - (off2 + key.length))).take plen =
      payload.take (i - (off2 + key.length)) :=
    List.take_of_length_le (by rw [hplen']; omega)
  rw [htp2] at hcoreT
  have hch0' : ¬ ((chunk.take i).length = 0) := by
    simp only [List.length_take]
    omega
  have hstep1 : readFrame (chunk.take i) newParser =
      (⟨[], some ⟨(b0 >>> 7) &&& 1 != 0, (b0 >>> 6) &&& 1,
        (b0 >>> 5) &&& 1, (b0 >>> 4) &&& 1, (b1 >>> 7) &&& 1 != 0,
        b0 &&& 15, plen, payload.take (i - (off2 + key.length)),
        (if (b1 >>> 7) &&& 1 != 0 then key else List.replicate 4 0),
        (if (b1 >>> 7) &&& 1 != 0 then off2 + 4 else off2)⟩⟩, .ok []) := by
    rw [readFrame, readFragmentedBuffer_none (chunk.take i) newParser rfl]
    simp only [hch0', if_false, hcoreT]
    rfl
  have hdropI : chunk.drop i = payload.drop (i - (off2 + key.length)) := by
    have h1 : chunk.drop i = (chunk.drop off2).drop (i - off2) := by
      rw [List.drop_drop]
      congr 1
      omega
    rw [h1, hdrop, List.drop_append_eq_append_drop,
      List.drop_eq_nil_of_le (by omega : key.length ≤ i - off2)]
    simp only [List.nil_append]
    congr 1
    omega
  have htk3 : (payload.drop (i - (off2 + key.length))).take
      (plen - (i - (off2 + key.length))) =
      payload.drop (i - (off2 + key.length)) :=
    List.take_of_length_le (by simp only [List.length_drop]; omega)
  have hcomb : payload.take (i - (off2 + key.length)) ++
      (chunk.drop i).take (plen -
        (payload.take (i - (off2 + key.length))).length) = payload := by
    rw [hplen', hdropI, htk3, List.take_append_drop]
  have hnil2 : (chunk.drop i).drop (plen -
      (payload.take (i - (off2 + key.length))).length) = [] := by
    rw [hplen', hdropI]
    apply List.drop_eq_nil_of_le
    simp only [List.length_drop]
    omega
  have hgt : ¬ (plen - (payload.take (i - (off2 + key.length))).length >
      (chunk.drop i).length) := by
    rw [hplen', hdropI]
    simp only [List.length_drop]
    omega
  have hfrag : readFragmentedBuffer (chunk.drop i)
      (⟨[], some ⟨(b0 >>> 7) &&& 1 != 0, (b0 >>> 6) &&& 1,
        (b0 >>> 5) &&& 1, (b0 >>> 4) &&& 1, (b1 >>> 7) &&& 1 != 0,
        b0 &&& 15, plen, payload.take (i - (off2 + key.length)),
        (if (b1 >>> 7) &&& 1 != 0 then key else List.replicate 4 0),
        (if (b1 >>> 7) &&& 1 != 0 then off2 + 4 else off2)⟩⟩ : ParserState) =
      ([], ⟨[⟨(b0 >>> 7) &&& 1 != 0, (b0 >>> 6) &&& 1, (b0 >>> 5) &&& 1,
        (b0 >>> 4) &&& 1, b0 &&& 15, (b1 >>> 7) &&& 1 != 0, plen,
        (if (b1 >>> 7) &&& 1 != 0 then
          unmask payload plen
            (if (b1 >>> 7) &&& 1 != 0 then key else List.replicate 4 0)
         else payload),
        (if (b1 >>> 7) &&& 1 != 0 then off2 + 4 else off2) +
          (if (b1 >>> 7) &&& 1 != 0 then
            unmask payload plen
              (if (b1 >>> 7) &&& 1 != 0 then key else List.replicate 4 0)
           else payload).length⟩], none⟩) := by
    rw [readFragmentedBuffer]
    simp only []
    rw [if_neg hgt]
    simp only [hcomb, hnil2, List.nil_append]
  refine ⟨hwhole, ?_, ?_⟩
  · rw [hstep1]
  · rw [hstep1, readFrame]
    simp only [hfrag]
    simp only [List.length_nil, if_true]
    cases hB : ((b1 >>> 7) &&& 1 != 0) <;>
      simp only [hB, Bool.false_eq_true, if_false, if_true]

theorem maskIf_add (b1 off : Nat) (key : List Nat)
    (hkey : if (b1 >>> 7) &&& 1 != 0 then key.length = 4 else key = []) :
    (if (b1 >>> 7) &&& 1 != 0 then off + 4 else off) = off + key.length := by
  cases hB : ((b1 >>> 7) &&& 1 != 0)
  · have hnil : key = [] := by
      have h := hkey
      rw [hB] at h
      simpa using h
    simp [hnil]
  · have h4 : key.length = 4 := by
      have h := hkey
      rw [hB] at h
      simpa using h
    simp [h4]

theorem len126_of_le125 (chunk : List Nat) (b1 : Nat)
    (h : b1 &&& 127 ≤ 125) :
    readLen126 chunk b1 = .ok (b1 &&& 127, 2) := by
  rw [readLen126, if_neg]
  simp only [beq_iff_eq]
  omega

theorem len127_of_ne (chunk : List Nat) (pl1 off1 : Nat) (h : pl1 ≠ 127) :
    readLen127 chunk pl1 off1 = .ok (pl1, off1) := by
  rw [readLen127, if_neg]
  simp [h]

theorem len126_at126 (b0 b1 e0 e1 : Nat) (t : List Nat)
    (h : b1 &&& 127 = 126) :
    readLen126 (b0 :: b1 :: e0 :: e1 :: t) b1 = .ok (e0 * 256 + e1, 4) := by
  rw [readLen126, if_pos (by rw [h]; rfl),
    show bufReadUInt16BE (b0 :: b1 :: e0 :: e1 :: t) 2 = .ok (e0 * 256 + e1)
      from by
        rw [bufReadUInt16BE, if_pos (by simp only [List.length_cons]; omega)]
        rfl]

theorem len126_at127 (chunk : List Nat) (b1 : Nat) (h : b1 &&& 127 = 127) :
    readLen126 chunk b1 = .ok (127, 2) := by
  rw [readLen126, h, if_neg (by decide)]

set_option maxRecDepth 4000 in
theorem len127_at127 (b0 b1 y0 y1 y2 y3 : Nat) (t : List Nat) :
    readLen127 (b0 :: b1 :: 0 :: 0 :: 0 :: 0 :: y0 :: y1 :: y2 :: y3 :: t)
      127 2 =
      .ok (y0 * 16777216 + y1 * 65536 + y2 * 256 + y3, 10) := by
  rw [readLen127, if_pos (show ((127 : Nat) == 127) = true from rfl),
    show bufReadUInt32BE
        (b0 :: b1 :: 0 :: 0 :: 0 :: 0 :: y0 :: y1 :: y2 :: y3 :: t) 2 =
        .ok 0 from by
      rw [bufReadUInt32BE, if_pos (by simp only [List.length_cons]; omega)]
      simp]
  simp only []
  rw [show bufReadUInt32BE
      (b0 :: b1 :: 0 :: 0 :: 0 :: 0 :: y0 :: y1 :: y2 :: y3 :: t) 6 =
      .ok (y0 * 16777216 + y1 * 65536 + y2 * 256 + y3) from by
    rw [bufReadUInt32BE, if_pos (by simp only [List.length_cons]; omega)]
    simp [List.getD_cons_succ, List.getD_cons_zero]]
  simp only []
  rw [if_neg (by decide)]

set_option maxRecDepth 8000 in
/-- **C2 (counterexample).** Two failure modes of the original claim that any
split of a frame across two reads reassembles it.
First, splitting a frame inside its 2-byte fixed header does not merely defer
the frame to the next call: feeding the complete frame `[129, 0]` yields one
parsed frame, but feeding only its first byte `[129]` makes `readFrame` throw
a range error (from `readUInt8(1)`) with the parser state unchanged.
Second, the canonical encoding of a 127-byte payload (LEN7 = 126, 16-bit
extended length 127) is misrouted even without any split: after the 126-branch
sets `payloadLen` to 127, the source re-tests `payloadLen === 127` on the
UPDATED value and enters the 64-bit branch, so feeding the complete 131-byte
frame `[130, 126, 0, 127] ++ 127 payload bytes of 1` reads payload bytes as
the upper 32-bit length half and throws the unsupported-length error, and
feeding just its 4 header bytes throws a range error — there is no
whole-buffer parsed frame for any split to reassemble to, so such frames are
necessarily excluded from the amended reassembly statement. -/
theorem claim_C2_counterexample :
    (readFrame [129, 0] newParser).1.parsedFrames.length = 1 ∧
    readFrame [129] newParser = (newParser, .error .rangeError) ∧
    readFrame ([130, 126, 0, 127] ++ List.replicate 127 1) newParser =
      (newParser, .error .unsupportedLength) ∧
    readFrame [130, 126, 0, 127] newParser =
      (newParser, .error .rangeError) :=
  ⟨rfl, rfl, rfl, rfl⟩

/-- **C2 (amended).** A single well-formed unfragmented frame (clean RSV bits,
any of the three length classes — where in the 16-bit class the extended
length value must not be 127, since the source re-tests the updated
`payloadLen === 127` and misroutes such frames into the 64-bit branch, see
`claim_C2_counterexample` — optional masking key, complete payload) that is
split into two chunks at a boundary `i` that is `0` or at/after the end of
the header-plus-key prefix is reassembled exactly: the first call returns no
frames, and the second call produces the same single parsed `Frame` (payload
unmasked when the mask bit is set) that feeding the whole buffer at once
produces. (Splits strictly inside the header/key prefix instead throw a range
error or corrupt the parse, as `claim_C2_counterexample` shows.) -/
theorem claim_C2_fragmentation_amended
    (chunk : List Nat) (b0 b1 plen i : Nat) (ext key payload : List Nat)
    (hchunk : chunk = b0 :: b1 :: (ext ++ (key ++ payload)))
    (hrsv1 : (b0 >>> 6) &&& 1 = 0) (hrsv2 : (b0 >>> 5) &&& 1 = 0)
    (hrsv3 : (b0 >>> 4) &&& 1 = 0)
    (hext :
      (b1 &&& 127 ≤ 125 ∧ ext = [] ∧ plen = b1 &&& 127) ∨
      (b1 &&& 127 = 126 ∧ plen ≠ 127 ∧
        ∃ e0 e1, ext = [e0, e1] ∧ plen = e0 * 256 + e1) ∨
      (b1 &&& 127 = 127 ∧ ∃ y0 y1 y2 y3,
        ext = [0, 0, 0, 0, y0, y1, y2, y3] ∧
        plen = y0 * 16777216 + y1 * 65536 + y2 * 256 + y3))
    (hkey : if (b1 >>> 7) &&& 1 != 0 then key.length = 4 else key = [])
    (hpay : payload.length = plen)
    (hi : i = 0 ∨ 2 + ext.length + key.length ≤ i)
    (hile : i ≤ 2 + ext.length + key.length + plen) :
    readFrame chunk newParser =
      (⟨[⟨(b0 >>> 7) &&& 1 != 0, (b0 >>> 6) &&& 1, (b0 >>> 5) &&& 1,
        (b0 >>> 4) &&& 1, b0 &&& 15, (b1 >>> 7) &&& 1 != 0, plen,
        (if (b1 >>> 7) &&& 1 != 0 then unmask payload plen key else payload),
        2 + ext.length + key.length +
          (if (b1 >>> 7) &&& 1 != 0 then unmask payload plen key
           else payload).length⟩], none⟩, .ok []) ∧
    (readFrame (chunk.take i) newParser).2 = .ok [] ∧
    readFrame (chunk.drop i) (readFrame (chunk.take i) newParser).1 =
      (⟨[⟨(b0 >>> 7) &&& 1 != 0, (b0 >>> 6) &&& 1, (b0 >>> 5) &&& 1,
        (b0 >>> 4) &&& 1, b0 &&& 15, (b1 >>> 7) &&& 1 != 0, plen,
        (if (b1 >>> 7) &&& 1 != 0 then unmask payload plen key else payload),
        2 + ext.length + key.length +
          (if (b1 >>> 7) &&& 1 != 0 then unmask payload plen key
           else payload).length⟩], none⟩, .ok []) := by
  subst hchunk
  rcases hext with ⟨h125, hextnil, hpl⟩ |
    ⟨h126c, hne, e0, e1, hextE, hpl⟩ |
    ⟨h127c, y0, y1, y2, y3, hextE, hpl⟩
  · subst hextnil
    subst hpl
    have hbk := maskIf_add b1 2 key hkey
    have H := readFrame_split_eq (b0 :: b1 :: ([] ++ (key ++ payload)))
      b0 b1 (b1 &&& 127) 2 (b1 &&& 127) 2 i key payload rfl rfl
      hrsv1 hrsv2 hrsv3
      (len126_of_le125 _ b1 h125)
      (len127_of_ne _ (b1 &&& 127) 2 (by omega))
      hkey (by simp) hpay
      (by rw [hbk]; simp only [List.length_cons, List.length_append,
        List.length_nil, hpay]; omega)
      (by rw [hbk]; simpa using hi)
      (by simp only [List.length_cons, List.length_append,
        List.length_nil] at hile ⊢; omega)
    have hfl : (2 : Nat) + List.length ([] : List Nat) + key.length =
        (if (b1 >>> 7) &&& 1 != 0 then 2 + 4 else 2) := by
      rw [hbk]
      simp
    rw [hfl]
    exact H
  · subst hextE
    subst hpl
    have hbk := maskIf_add b1 4 key hkey
    have H := readFrame_split_eq (b0 :: b1 :: ([e0, e1] ++ (key ++ payload)))
      b0 b1 (e0 * 256 + e1) 4 (e0 * 256 + e1) 4 i key payload rfl rfl
      hrsv1 hrsv2 hrsv3
      (len126_at126 b0 b1 e0 e1 (key ++ payload) h126c)
      (len127_of_ne _ (e0 * 256 + e1) 4 hne)
      hkey (by simp) hpay
      (by rw [hbk]; simp only [List.length_cons, List.length_append,
        List.length_nil, hpay]; omega)
      (by rw [hbk]; rcases hi with h | h
          · exact Or.inl h
          · right
            simp only [List.length_cons, List.length_nil] at h
            omega)
      (by simp only [List.length_cons, List.length_append,
        List.length_nil] at hile ⊢; omega)
    have hfl : (2 : Nat) + List.length [e0, e1] + key.length =
        (if (b1 >>> 7) &&& 1 != 0 then 4 + 4 else 4) := by
      rw [hbk]
      simp
    rw [hfl]
    exact H
  · subst hextE
    subst hpl
    have hbk := maskIf_add b1 10 key hkey
    have H := readFrame_split_eq
      (b0 :: b1 :: ([0, 0, 0, 0, y0, y1, y2, y3] ++ (key ++ payload)))
      b0 b1 127 2 (y0 * 16777216 + y1 * 65536 + y2 * 256 + y3) 10 i
      key payload rfl rfl hrsv1 hrsv2 hrsv3
      (len126_at127 _ b1 h127c)
      (len127_at127 b0 b1 y0 y1 y2 y3 (key ++ payload))
      hkey (by simp) hpay
      (by rw [hbk]; simp only [List.length_cons, List.length_append,
        List.length_nil, hpay]; omega)
      (by rw [hbk]; rcases hi with h | h
          · exact Or.inl h
          · right
            simp only [List.length_cons, List.length_nil] at h
            omega)
      (by simp only [List.length_cons, List.length_append,
        List.length_nil] at hile ⊢; omega)
    have hfl : (2 : Nat) + List.length [0, 0, 0, 0, y0, y1, y2, y3] +
        key.length = (if (b1 >>> 7) &&& 1 != 0 then 10 + 4 else 10) := by
      rw [hbk]
      simp
    rw [hfl]
    exact H

/-- Concrete instance of the amended C2: the 3-byte frame `[130, 1, 65]`
(FIN binary frame, unmasked, 1-byte payload) split after its header is
reassembled by two `readFrame` calls into the same single frame. -/
theorem claim_C2_fragmentation_amended_witness :
    readFrame [65] (readFrame [130, 1] newParser).1 =
      (⟨[⟨true, 0, 0, 0, 2, false, 1, [65], 3⟩], none⟩, .ok []) :=
  (claim_C2_fragmentation_amended [130, 1, 65] 130 1 1 2 [] [] [65]
    rfl rfl rfl rfl
    (Or.inl ⟨by decide, rfl, rfl⟩) rfl rfl (Or.inr (by decide))
    (by decide)).2.2

end Websockets
